import Mathlib

/-!
Verification of the financial modeling engine of an EV-charging + solar
project calculator.  The engine is a set of pure numeric functions
(amortization, depreciation scheduling, cash-flow projection, NPV
discounting, Newton-Raphson IRR root finding, payback interpolation and a
metrics aggregator).  We embed the engine shallowly over exact rational
arithmetic: every source operation used here (+, -, *, /, pow with natural
exponents, min, max, comparisons) is rational, so the embedding is exact
except that JavaScript division by zero produces NaN/Infinity while ℚ
division by zero produces 0; every theorem touching such a branch states
this explicitly.

Source of truth: components/ui/FinancialCalculator.tsx (the canonical
variant of the engine; an older divergent variant of the same component
exists in the repository and is noted where a claim depends on it).
-/

namespace EVSolar

/-- Convergence tolerance used by the IRR solver (source: `epsilon = 0.000001`). -/
def irrEps : ℚ := 1 / 1000000

/-- Body of the reduce in `calculateNPV`: sum of `cf / (1+rate)^(year+1)`
starting the year index at `y`. -/
def npvAux (discountRate : ℚ) : List ℚ → ℕ → ℚ
  | [], _ => 0
  | cf :: rest, y => cf / (1 + discountRate) ^ (y + 1) + npvAux discountRate rest (y + 1)

/-- Source `calculateNPV(cashFlows, discountRate, initialInvestment)`:
reduce over the cash flows with accumulator seeded at `-initialInvestment`,
adding `cashFlow / (1 + discountRate)^(year+1)` for each zero-indexed year. -/
def calculateNPV (cashFlows : List ℚ) (discountRate : ℚ) (initialInvestment : ℚ) : ℚ :=
  -initialInvestment + npvAux discountRate cashFlows 0

/-- Body of the reduce computing `derivativeNpv` inside `calculateIRR`:
`acc - i * cf / (1+guess)^(i+1)` with the element index starting at `i`. -/
def derivAux (guess : ℚ) : List ℚ → ℕ → ℚ
  | [], _ => 0
  | cf :: rest, i => -((i : ℚ) * cf / (1 + guess) ^ (i + 1)) + derivAux guess rest (i + 1)

/-- The quantity `derivativeNpv` computed by the IRR solver at a given guess
(note: the source uses index `i` and power `i+1`, which is not the true
derivative of `calculateNPV`; we transcribe the source). -/
def derivativeNpv (cashFlows : List ℚ) (guess : ℚ) : ℚ :=
  derivAux guess cashFlows 0

/-- One pass of the `while (maxIterations > 0)` loop of `calculateIRR`,
with the remaining iteration count as fuel. -/
def irrGo (cashFlows : List ℚ) : ℚ → ℕ → Option ℚ
  | _, 0 => none
  | guess, n + 1 =>
    let npv := calculateNPV cashFlows guess 0
    if |npv| < irrEps then some guess
    else
      let d := derivativeNpv cashFlows guess
      if d = 0 then none
      else
        let nextGuess := guess - npv / d
        if |nextGuess - guess| < irrEps then some nextGuess
        else irrGo cashFlows nextGuess n

/-- Source `calculateIRR(cashFlows)`: Newton-Raphson from initial guess 0.1
with at most 100 iterations; `none` models the source's `null`. -/
def calculateIRR (cashFlows : List ℚ) : Option ℚ :=
  irrGo cashFlows (1 / 10) 100

/-- The `for` loop of `calculatePaybackPeriod`: walk the cash flows keeping
the running cumulative (already including years before index `i`). -/
def paybackGo : List ℚ → ℚ → ℕ → Option ℚ
  | [], _, _ => none
  | cf :: rest, cum, i =>
    if 0 ≤ cum + cf then
      some ((i : ℚ) + (-(cum + cf - cf)) / cf)
    else paybackGo rest (cum + cf) (i + 1)

/-- Source `calculatePaybackPeriod(cashFlows, initialInvestment)`: cumulative
starts at `-initialInvestment`; at the first index where it becomes
non-negative return `i + (-previousCumulative) / cashFlows[i]`, where
`previousCumulative = cumulativeCashFlow - cashFlows[i]`; `none` if the
cumulative stays negative. -/
def calculatePaybackPeriod (cashFlows : List ℚ) (initialInvestment : ℚ) : Option ℚ :=
  paybackGo cashFlows (-initialInvestment) 0

/-- Source `calculateLoanPayment(principal, annualRate, termYears)`:
`monthlyRate = annualRate/12/100`, `n = termYears*12`, then the standard
amortization formula `P * r * (1+r)^n / ((1+r)^n - 1)` with NO zero-rate
special case.  In ℚ a zero denominator yields 0 where JavaScript yields NaN. -/
def calculateLoanPayment (principal : ℚ) (annualRate : ℚ) (termYears : ℕ) : ℚ :=
  let monthlyRate := annualRate / 12 / 100
  let numberOfPayments := termYears * 12
  principal * monthlyRate * (1 + monthlyRate) ^ numberOfPayments /
    ((1 + monthlyRate) ^ numberOfPayments - 1)

/-- Source `macrsSchedule` array literal (20 entries: the 6-year accelerated
table then fourteen zeros). -/
def macrsSchedule : List ℚ :=
  [0.2, 0.32, 0.192, 0.1152, 0.1152, 0.0576,
   0, 0, 0, 0, 0, 0, 0, 0, 0, 0, 0, 0, 0, 0]

/-- Source lookup `macrsSchedule[year] || 0`: entries 0..5 are truthy, the
stored zeros and the out-of-range `undefined` both collapse to 0. -/
def macrsAt (year : ℕ) : ℚ :=
  macrsSchedule.getD year 0

/-- Location selector for the SREC price (source `location` state, one of
the strings MD / DC / anything else). -/
inductive Location
  | MD
  | DC
  | other
deriving DecidableEq

/-- ProjectAssumptions: the immutable numeric inputs of one engine run
(source: the `useState` groups of the calculator component).  Years and the
loan term are natural numbers because they length arrays and exponentiate
rationals; everything else is an exact rational. -/
structure Assumptions where
  numStations : ℚ
  costPerStation : ℚ
  pricePerKwh : ℚ
  sessionsPerDay : ℚ
  energyPerSession : ℚ
  operationalYears : ℕ
  systemSize : ℚ
  costPerWatt : ℚ
  annualProduction : ℚ
  includeBattery : Bool
  numBatteries : ℚ
  costPerBattery : ℚ
  batteryAnnual : ℚ
  financingIsLoan : Bool
  apr : ℚ
  loanTerm : ℕ
  downPayment : ℚ
  baseTaxCredit : ℚ
  additionalTaxCredit : Bool
  utilityRebatePerCharger : ℚ
  gridRate : ℚ
  annualUtilityRate : ℚ
  evChargerAnnual : ℚ
  solarAnnual : ℚ
  evChargeEscalator : ℚ
  solarOffset : ℚ
  location : Location
  srecEligibilityYears : ℕ

/-- Source `totalSolarCost = systemSize * 1000 * costPerWatt`. -/
def totalSolarCost (a : Assumptions) : ℚ := a.systemSize * 1000 * a.costPerWatt

/-- Source `totalEvStationsCost = numStations * costPerStation`. -/
def totalEvStationsCost (a : Assumptions) : ℚ := a.numStations * a.costPerStation

/-- Source `totalBatteryCost`, zero unless the battery is enabled. -/
def totalBatteryCost (a : Assumptions) : ℚ :=
  if a.includeBattery then a.numBatteries * a.costPerBattery else 0

/-- Source `totalProjectCost = totalSolarCost + totalEvStationsCost + totalBatteryCost`. -/
def totalProjectCost (a : Assumptions) : ℚ :=
  totalSolarCost a + totalEvStationsCost a + totalBatteryCost a

/-- Source `baseTaxCreditAmount = totalProjectCost * (baseTaxCredit / 100)`. -/
def baseTaxCreditAmount (a : Assumptions) : ℚ :=
  totalProjectCost a * (a.baseTaxCredit / 100)

/-- Source `additionalTaxCreditAmount`, a flat 10% of total cost when enabled. -/
def additionalTaxCreditAmount (a : Assumptions) : ℚ :=
  if a.additionalTaxCredit then totalProjectCost a * 0.1 else 0

/-- Source `utilityRebateAmount = numStations * utilityRebatePerCharger`. -/
def utilityRebateAmount (a : Assumptions) : ℚ :=
  a.numStations * a.utilityRebatePerCharger

/-- Source `totalIncentives` (SREC revenue deliberately excluded). -/
def totalIncentives (a : Assumptions) : ℚ :=
  baseTaxCreditAmount a + additionalTaxCreditAmount a + utilityRebateAmount a

/-- Source `netProjectCost = totalProjectCost - totalIncentives`. -/
def netProjectCost (a : Assumptions) : ℚ :=
  totalProjectCost a - totalIncentives a

/-- Source `annualSrecs = Math.floor(annualProduction / 1000)`. -/
def annualSrecs (a : Assumptions) : ℤ := ⌊a.annualProduction / 1000⌋

/-- Source `srecPrice`: 80 for MD, 350 for DC, else 0. -/
def srecPrice (a : Assumptions) : ℚ :=
  match a.location with
  | Location.MD => 80
  | Location.DC => 350
  | Location.other => 0

/-- Source `annualSrecRevenue = annualSrecs * srecPrice`. -/
def annualSrecRevenue (a : Assumptions) : ℚ :=
  (annualSrecs a : ℚ) * srecPrice a

/-- Discount rate chosen inside `financialMetrics`: loan APR as a fraction
when financed, else the fixed default 0.1. -/
def discountRate (a : Assumptions) : ℚ :=
  if a.financingIsLoan then a.apr / 100 else 0.1

/-- CashFlowYear: one record of the schedule, exactly the object returned by
the `Array.from` callback inside `financialMetrics` (the `year` field is
1-indexed). -/
structure CashFlowYear where
  year : ℕ
  evRevenue : ℚ
  gridCost : ℚ
  maintenanceCost : ℚ
  loanPayment : ℚ
  profit : ℚ
  taxes : ℚ
  depreciation : ℚ
  cashFlow : ℚ
  cumulativeCashFlow : ℚ
  discountedCashFlow : ℚ
deriving DecidableEq

/-- One year of the Cash Flow Projector: the body of the `Array.from`
callback in `financialMetrics`, with `year` the 0-indexed loop variable.
Note the transcribed `cumulativeCashFlow`: the accumulator is declared
inside the callback, so it is `-netProjectCost + cashFlow` at year 0 and
just `cashFlow` at every later year. -/
def cashFlowYear (a : Assumptions) (year : ℕ) : CashFlowYear :=
  let evEnergyDemand := a.numStations * a.sessionsPerDay * a.energyPerSession * 365
  let solarEnergyUsed := min a.annualProduction (evEnergyDemand * (a.solarOffset / 100))
  let gridEnergyUsed := max 0 (evEnergyDemand - solarEnergyUsed)
  let evRevenue := a.numStations * a.sessionsPerDay * a.energyPerSession *
    (a.pricePerKwh * (1 + a.evChargeEscalator) ^ year) * 365
  let gridCost := gridEnergyUsed * a.gridRate * (1 + a.annualUtilityRate) ^ year
  let maintenanceCost :=
    (a.evChargerAnnual * a.numStations + a.solarAnnual) * (1.03 : ℚ) ^ year
  let batteryCost :=
    if a.includeBattery then a.batteryAnnual * a.numBatteries * (1.03 : ℚ) ^ year else 0
  let totalMaintenanceCost := maintenanceCost + batteryCost
  let loanPayment :=
    if a.financingIsLoan ∧ year < a.loanTerm then
      calculateLoanPayment (totalProjectCost a - a.downPayment) a.apr a.loanTerm
    else 0
  let profit := evRevenue - gridCost - totalMaintenanceCost - loanPayment
  let depreciableBasis := totalProjectCost a - 0.5 * baseTaxCreditAmount a
  let depreciation := macrsAt year * depreciableBasis
  let taxableIncome := profit - depreciation
  let taxes := if 0 < taxableIncome then taxableIncome * 0.21 else 0
  let cashFlow := profit - taxes
  let cumulativeCashFlow := (if year = 0 then -netProjectCost a else 0) + cashFlow
  let discountedCashFlow := cashFlow / (1 + discountRate a) ^ (year + 1)
  { year := year + 1
    evRevenue := evRevenue
    gridCost := gridCost
    maintenanceCost := totalMaintenanceCost
    loanPayment := loanPayment
    profit := profit
    taxes := taxes
    depreciation := depreciation
    cashFlow := cashFlow
    cumulativeCashFlow := cumulativeCashFlow
    discountedCashFlow := discountedCashFlow }

/-- The CashFlowSchedule: `Array.from({length: operationalYears}, (_, year) => ...)`. -/
def cashFlowSchedule (a : Assumptions) : List CashFlowYear :=
  (List.range a.operationalYears).map (cashFlowYear a)

/-- FinancialMetrics: the object returned by the `financialMetrics` memo. -/
structure FinancialMetrics where
  totalProjectCost : ℚ
  totalIncentives : ℚ
  netProjectCost : ℚ
  incentivePercentage : ℚ
  annualEvRevenue : ℚ
  baseTaxCreditAmount : ℚ
  additionalTaxCreditAmount : ℚ
  utilityRebateAmount : ℚ
  irr : Option ℚ
  paybackPeriod : Option ℚ
  npv : Option ℚ
  totalRevenue : ℚ
  annualSrecRevenue : ℚ
  cashFlows : List CashFlowYear
  loanTotalCost : ℚ
  evEnergyDemand : ℚ
  solarEnergyUsed : ℚ
  roi : ℚ
  annualizedROI : ℚ
deriving DecidableEq

/-- The Metrics Aggregator: transcription of the `financialMetrics` memo
body.  Notes kept from the source:
 * `irr` is the solver result scaled by 100 (`irr !== null ? irr * 100 : null`);
 * `roi = ((totalCashFlow - initialInvestment) / initialInvestment) * 100`
   is already percent-scaled, and `annualizedROI = roi / totalYears`;
 * the returned object literal lists `annualizedROI: annualizedROI * 100`
   first and the shorthand property `annualizedROI` again later — in
   JavaScript the later duplicate key wins, so the exposed field is the
   unrescaled `annualizedROI` and the `* 100` entry is dead;
 * `npv` is guarded by `!isNaN(npv)`; exact rational arithmetic produces no
   NaN, so the embedded field is always `some`. -/
def financialMetrics (a : Assumptions) : FinancialMetrics :=
  let annualEvRevenue :=
    a.numStations * a.sessionsPerDay * a.energyPerSession * a.pricePerKwh * 365
  let loanTotalCost :=
    if a.financingIsLoan then
      a.apr / 100 * (a.loanTerm : ℚ) * (totalProjectCost a - a.downPayment)
        + totalProjectCost a
    else 0
  let initialInvestment := netProjectCost a
  let cashFlows := cashFlowSchedule a
  let cashFlowsOnly := cashFlows.map (fun flow => flow.cashFlow)
  let npv := calculateNPV cashFlowsOnly (discountRate a) initialInvestment
  let irr := calculateIRR (-initialInvestment :: cashFlowsOnly)
  let paybackPeriod := calculatePaybackPeriod cashFlowsOnly initialInvestment
  let totalCashFlow := cashFlowsOnly.sum
  let totalYears : ℚ := (a.operationalYears : ℚ)
  let roi := (totalCashFlow - initialInvestment) / initialInvestment * 100
  let annualizedROI := roi / totalYears
  let evEnergyDemand := a.numStations * a.sessionsPerDay * a.energyPerSession * 365
  let solarEnergyUsed := min a.annualProduction (evEnergyDemand * (a.solarOffset / 100))
  { totalProjectCost := totalProjectCost a
    totalIncentives := totalIncentives a
    netProjectCost := netProjectCost a
    incentivePercentage := totalIncentives a / totalProjectCost a * 100
    annualEvRevenue := annualEvRevenue
    baseTaxCreditAmount := baseTaxCreditAmount a
    additionalTaxCreditAmount := additionalTaxCreditAmount a
    utilityRebateAmount := utilityRebateAmount a
    irr := irr.map (fun r => r * 100)
    paybackPeriod := paybackPeriod
    npv := some npv
    totalRevenue := totalCashFlow
    annualSrecRevenue := annualSrecRevenue a
    cashFlows := cashFlows
    loanTotalCost := loanTotalCost
    evEnergyDemand := evEnergyDemand
    solarEnergyUsed := solarEnergyUsed
    roi := roi
    annualizedROI := annualizedROI }

/-- A small concrete ProjectAssumptions used to evaluate the engine: one
station costing 1000, revenue 365/year, two operational years, cash
financing, no solar, no battery, no incentives, no escalation, no
maintenance, no grid cost. -/
def testA : Assumptions :=
  { numStations := 1
    costPerStation := 1000
    pricePerKwh := 1
    sessionsPerDay := 1
    energyPerSession := 1
    operationalYears := 2
    systemSize := 0
    costPerWatt := 0
    annualProduction := 0
    includeBattery := false
    numBatteries := 0
    costPerBattery := 0
    batteryAnnual := 0
    financingIsLoan := false
    apr := 0
    loanTerm := 0
    downPayment := 0
    baseTaxCredit := 0
    additionalTaxCredit := false
    utilityRebatePerCharger := 0
    gridRate := 0
    annualUtilityRate := 0
    evChargerAnnual := 0
    solarAnnual := 0
    evChargeEscalator := 0
    solarOffset := 0
    location := Location.other
    srecEligibilityYears := 0 }

/-- Order on payback results used for the monotonicity property: a `none`
result ("never recovered") counts as larger than every non-null result. -/
def payLe : Option ℚ → Option ℚ → Prop
  | _, none => True
  | none, some _ => False
  | some a, some b => a ≤ b

/-- Specification-level Payback Calculator: find the first year index whose
running cumulative (seeded at `-initialInvestment`) is non-negative and
return that index plus `(-previousCumulative) / cashFlows[i]`; `none` when
the cumulative stays negative through the whole sequence. -/
def paybackSpec (cashFlows : List ℚ) (initialInvestment : ℚ) : Option ℚ :=
  ((List.range cashFlows.length).find?
      (fun i => decide (0 ≤ -initialInvestment + (cashFlows.take (i + 1)).sum))).map
    (fun (i : ℕ) => (i : ℚ) +
      (-(-initialInvestment + (cashFlows.take i).sum)) / cashFlows.getD i 0)

/-- Specification-level description of the IRR solver failing: with the given
remaining iteration budget, either the budget is exhausted (0 left) or the
current guess does not meet the NPV tolerance and from it the solver either
meets a zero derivative or steps (without meeting the successive-guess
tolerance) into a state that again fails. -/
def irrStuck (cfs : List ℚ) : ℚ → ℕ → Prop
  | _, 0 => True
  | g, n + 1 =>
    ¬|calculateNPV cfs g 0| < irrEps ∧
      (derivativeNpv cfs g = 0 ∨
        (¬|g - calculateNPV cfs g 0 / derivativeNpv cfs g - g| < irrEps ∧
          irrStuck cfs (g - calculateNPV cfs g 0 / derivativeNpv cfs g) n))

/-- Specification-level description of a rate the IRR solver may return: a
guess meeting the NPV tolerance, or a Newton step from some guess with
nonzero derivative meeting the successive-guess tolerance. -/
def irrConverged (cfs : List ℚ) (r : ℚ) : Prop :=
  |calculateNPV cfs r 0| < irrEps ∨
    ∃ g, derivativeNpv cfs g ≠ 0 ∧
      r = g - calculateNPV cfs g 0 / derivativeNpv cfs g ∧ |r - g| < irrEps
/-- Unfolding lemma for one iteration of the IRR loop, usable when the fuel
is a numeral. -/
lemma irrGo_succ (cfs : List ℚ) (g : ℚ) (n : ℕ) :
    irrGo cfs g (n + 1) =
      (let npv := calculateNPV cfs g 0
      if |npv| < irrEps then some g
      else
        let d := derivativeNpv cfs g
        if d = 0 then none
        else
          let nextGuess := g - npv / d
          if |nextGuess - g| < irrEps then some nextGuess
          else irrGo cfs nextGuess n) := rfl

/-- C1: the claim says each year's `cumulativeCashFlow` is the running sum of
net cash flows offset by `-netProjectCost`.  The code re-declares the
accumulator inside the per-year callback, so the stored field is just that
year's net cash flow for every year after the first.  At `testA` the
schedule is two years `[cashFlowYear testA 0, cashFlowYear testA 1]`, the
year-1 field equals the year-1 net cash flow alone, and it differs from the
running sum `-netProjectCost + cf₀ + cf₁`.  (The in-repo cash-flow table
recomputes the running sum from scratch, confirming the stored field
contradicts the intended meaning.) -/
theorem cumulative_resets_each_year :
    cashFlowSchedule testA = [cashFlowYear testA 0, cashFlowYear testA 1] ∧
    (cashFlowYear testA 1).cumulativeCashFlow = (cashFlowYear testA 1).cashFlow ∧
    (cashFlowYear testA 1).cumulativeCashFlow ≠
      -netProjectCost testA +
        ((cashFlowYear testA 0).cashFlow + (cashFlowYear testA 1).cashFlow) := by
  refine ⟨by simp [cashFlowSchedule, testA, List.range_succ], ?_, ?_⟩
  · norm_num [cashFlowYear]
  · norm_num [cashFlowYear, macrsAt, macrsSchedule, testA,
      totalProjectCost, totalSolarCost, totalEvStationsCost, totalBatteryCost,
      baseTaxCreditAmount, additionalTaxCreditAmount, utilityRebateAmount,
      totalIncentives, netProjectCost, discountRate]

/-- C2: the claim says rate 0 is special-cased to `principal / (termYears*12)`
and the division-by-zero branch is not hit.  The source has no special case:
at rate 0 the amortization denominator `(1+0)^n - 1` is exactly 0, so the
formula evaluates `0/0` (NaN in JavaScript; 0 in this exact embedding),
which differs from `100000 / 120 = 2500/3`. -/
theorem zero_rate_hits_zero_denominator :
    (1 + (0 : ℚ) / 12 / 100) ^ (10 * 12) - 1 = 0 ∧
    calculateLoanPayment 100000 0 10 = 0 ∧
    (100000 : ℚ) / ((10 : ℚ) * 12) = 2500 / 3 ∧ (2500 / 3 : ℚ) ≠ 0 := by
  refine ⟨by norm_num, by norm_num [calculateLoanPayment], by norm_num, by norm_num⟩

/-- C6: the accelerated-depreciation table is exactly 20%, 32%, 19.2%,
11.52%, 11.52%, 5.76% at offsets 0..5 and 0 at every later offset; the six
nonzero entries (and hence the whole table) sum to 100%; and each projected
year's depreciation is the table entry times the depreciable basis
`totalProjectCost - baseTaxCreditAmount/2`. -/
theorem macrs_schedule_spec :
    macrsSchedule.take 6 = [0.2, 0.32, 0.192, 0.1152, 0.1152, 0.0576] ∧
    ((macrsSchedule.take 6).sum = 1 ∧ macrsSchedule.sum = 1) ∧
    (∀ y : ℕ, 6 ≤ y → macrsAt y = 0) ∧
    (∀ (a : Assumptions) (y : ℕ),
      (cashFlowYear a y).depreciation =
        macrsAt y * (totalProjectCost a - 0.5 * baseTaxCreditAmount a)) := by
  refine ⟨by norm_num [macrsSchedule], ⟨by norm_num [macrsSchedule], by norm_num [macrsSchedule]⟩,
    ?_, ?_⟩
  · intro y hy
    by_cases hlt : y < 20
    · interval_cases y <;> norm_num [macrsAt, macrsSchedule]
    · have : macrsSchedule.length ≤ y := by
        simpa [macrsSchedule] using Nat.le_of_not_lt hlt
      simp [macrsAt, List.getD, List.getElem?_eq_none this]
  · intro a y
    simp [cashFlowYear]

/-- C6 witness: the zero-beyond-the-table conjunct applied at offsets 7 and 25. -/
theorem macrs_schedule_spec_witness : macrsAt 7 = 0 ∧ macrsAt 25 = 0 :=
  ⟨macrs_schedule_spec.2.2.1 7 (by norm_num), macrs_schedule_spec.2.2.1 25 (by norm_num)⟩

/-- C7 counterexample: the claim says the exposed ROI is the plain fraction
`(Σ cashFlows - initialInvestment) / initialInvestment` with no ×100
scaling.  At `testA` the exposed `roi` field is that fraction multiplied by
100, so it differs from the fraction. -/
theorem roi_is_not_a_fraction :
    (financialMetrics testA).roi ≠
      (((financialMetrics testA).cashFlows.map (fun c => c.cashFlow)).sum -
        netProjectCost testA) / netProjectCost testA := by
  norm_num [financialMetrics, cashFlowSchedule, cashFlowYear, testA, List.range_succ,
    macrsAt, macrsSchedule, totalProjectCost, totalSolarCost, totalEvStationsCost,
    totalBatteryCost, baseTaxCreditAmount, additionalTaxCreditAmount,
    utilityRebateAmount, totalIncentives, netProjectCost, discountRate]

/-- C7 amended: the exposed ROI is the fraction `(Σ cf - I)/I` scaled by 100,
`annualizedROI` is that percent-scaled ROI divided by the operational years,
and the exposed IRR is the solver's raw fractional result scaled by 100 —
i.e. the ×100 scaling is applied to both ROI and IRR (not only IRR). -/
theorem roi_percent_scaling (a : Assumptions) :
    (financialMetrics a).roi =
      (((cashFlowSchedule a).map (fun c => c.cashFlow)).sum - netProjectCost a) /
        netProjectCost a * 100 ∧
    (financialMetrics a).annualizedROI =
      (financialMetrics a).roi / (a.operationalYears : ℚ) ∧
    (financialMetrics a).irr =
      (calculateIRR (-netProjectCost a ::
        (cashFlowSchedule a).map (fun c => c.cashFlow))).map (fun r => r * 100) := by
  refine ⟨by simp [financialMetrics], by simp [financialMetrics], by simp [financialMetrics]⟩

/-- C9: the exposed `annualizedROI` equals the percent-scaled `roi` divided
by the operational years, with no second ×100 applied: in the returned
object literal the later shorthand `annualizedROI` property overrides the
earlier `annualizedROI: annualizedROI * 100` entry. -/
theorem annualizedROI_single_scaling (a : Assumptions) :
    (financialMetrics a).annualizedROI =
      ((((cashFlowSchedule a).map (fun c => c.cashFlow)).sum - netProjectCost a) /
          netProjectCost a * 100) / (a.operationalYears : ℚ) ∧
    (financialMetrics a).annualizedROI =
      (financialMetrics a).roi / (a.operationalYears : ℚ) := by
  refine ⟨by simp [financialMetrics], by simp [financialMetrics]⟩

/-- Generalized form of the payback/first-crossing equivalence: the loop
with an arbitrary seed cumulative and starting index agrees with a search
for the first non-negative prefix cumulative. -/
lemma paybackGo_eq_find? (cfs : List ℚ) :
    ∀ (cum : ℚ) (k : ℕ),
      paybackGo cfs cum k =
        ((List.range cfs.length).find?
            (fun i => decide (0 ≤ cum + (cfs.take (i + 1)).sum))).map
          (fun (i : ℕ) => ((k + i : ℕ) : ℚ) + (-(cum + (cfs.take i).sum)) / cfs.getD i 0) := by
  induction cfs with
  | nil => intro cum k; simp [paybackGo]
  | cons c rest ih =>
    intro cum k
    rw [List.length_cons, List.range_succ_eq_map]
    by_cases h0 : 0 ≤ cum + c
    · rw [List.find?_cons_of_pos _ (by simpa using h0)]
      simp only [paybackGo]
      rw [if_pos h0]
      norm_num
    · rw [List.find?_cons_of_neg _ (by simpa using h0)]
      simp only [paybackGo]
      rw [if_neg h0, ih (cum + c) (k + 1), List.find?_map, Option.map_map]
      have hp : ((fun i => decide (0 ≤ cum + (((c :: rest).take (i + 1)).sum))) ∘ (· + 1)) =
          (fun i => decide (0 ≤ cum + c + ((rest.take (i + 1)).sum))) := by
        funext i
        simp only [Function.comp_apply, List.take_succ_cons, List.sum_cons, decide_eq_decide]
        constructor <;> intro <;> linarith
      have hf : ((fun (i : ℕ) => ((k + i : ℕ) : ℚ) +
            (-(cum + ((c :: rest).take i).sum)) / (c :: rest).getD i 0) ∘ (· + 1)) =
          (fun (i : ℕ) => ((k + 1 + i : ℕ) : ℚ) +
            (-(cum + c + (rest.take i).sum)) / rest.getD i 0) := by
        funext i
        simp only [Function.comp_apply, List.take_succ_cons, List.sum_cons, List.getD_cons_succ]
        push_cast
        ring_nf
      rw [hp, hf]

/-- C5: the Payback Calculator agrees, for every cash-flow sequence and
initial investment, with the specification: at the first index `i` whose
running cumulative (seeded at `-initialInvestment`) is non-negative it
returns `i + (-previousCumulative) / cashFlows[i]`, and it returns `none`
when the cumulative stays negative through the whole sequence. -/
theorem payback_matches_spec (cfs : List ℚ) (I : ℚ) :
    calculatePaybackPeriod cfs I = paybackSpec cfs I := by
  unfold calculatePaybackPeriod paybackSpec
  rw [paybackGo_eq_find? cfs (-I) 0]
  congr 1
  funext i
  norm_num

/-- Bounds on any non-null payback result: starting from a negative seed
cumulative at index `k`, a returned value lies in `(k, k + length]`. -/
lemma paybackGo_some_bounds (cfs : List ℚ) :
    ∀ (cum : ℚ) (k : ℕ) (p : ℚ), cum < 0 → paybackGo cfs cum k = some p →
      (k : ℚ) < p ∧ p ≤ (k : ℚ) + cfs.length := by
  induction cfs with
  | nil => intro cum k p _ h; simp [paybackGo] at h
  | cons c rest ih =>
    intro cum k p hcum h
    simp only [paybackGo] at h
    by_cases h0 : 0 ≤ cum + c
    · rw [if_pos h0] at h
      have hc : 0 < c := by linarith
      have hp : (k : ℚ) + (-(cum + c - c)) / c = p := by
        simpa using h
      have hfrac0 : 0 < (-(cum + c - c)) / c := by
        apply div_pos (by linarith) hc
      have hfrac1 : (-(cum + c - c)) / c ≤ 1 := by
        rw [div_le_one hc]; linarith
      rw [← hp]
      constructor
      · linarith
      · simp only [List.length_cons]
        push_cast
        linarith
    · rw [if_neg h0] at h
      have hb := ih (cum + c) (k + 1) p (not_le.mp h0) h
      push_cast at hb
      simp only [List.length_cons]
      push_cast
      constructor <;> linarith [hb.1, hb.2]

/-- C10: whenever the Payback Calculator returns a value `p` for a positive
initial investment, `0 < p ≤ length of the sequence`: the interpolated
fraction within the crossing year lies in `(0, 1]`. -/
theorem payback_in_range (cfs : List ℚ) (I p : ℚ) (hI : 0 < I)
    (h : calculatePaybackPeriod cfs I = some p) :
    0 < p ∧ p ≤ (cfs.length : ℚ) := by
  have hb := paybackGo_some_bounds cfs (-I) 0 p (by linarith) h
  simpa using hb

/-- C10 witness: on the one-year sequence `[2]` with investment 1 the
calculator returns 1/2, which lies in `(0, 1]`. -/
theorem payback_in_range_witness :
    (0 : ℚ) < 1 / 2 ∧ (1 / 2 : ℚ) ≤ (([2] : List ℚ).length : ℚ) :=
  payback_in_range [2] 1 (1 / 2) (by norm_num)
    (by norm_num [calculatePaybackPeriod, paybackGo])

/-- Anti-monotonicity of the payback loop in the seed cumulative: a larger
(still negative) cumulative can only give an earlier (`payLe`-smaller)
result, for positive cash flows. -/
lemma paybackGo_anti_cum (cfs : List ℚ) :
    ∀ (cumA cumB : ℚ) (k : ℕ), (∀ c ∈ cfs, 0 < c) → cumA ≤ cumB → cumA < 0 → cumB < 0 →
      payLe (paybackGo cfs cumB k) (paybackGo cfs cumA k) := by
  induction cfs with
  | nil => intro _ _ _ _ _ _ _; simp [paybackGo, payLe]
  | cons c rest ih =>
    intro cumA cumB k hpos hle hA hB
    have hc : 0 < c := hpos c (List.mem_cons_self c rest)
    simp only [paybackGo]
    by_cases hBc : 0 ≤ cumB + c
    · rw [if_pos hBc]
      by_cases hAc : 0 ≤ cumA + c
      · rw [if_pos hAc]
        show (k : ℚ) + (-(cumB + c - c)) / c ≤ (k : ℚ) + (-(cumA + c - c)) / c
        exact add_le_add_left ((div_le_div_right hc).mpr (by linarith)) _
      · rw [if_neg hAc]
        rcases hgo : paybackGo rest (cumA + c) (k + 1) with _ | p
        · exact trivial
        · have hb := paybackGo_some_bounds rest (cumA + c) (k + 1) p (not_le.mp hAc) hgo
          show (k : ℚ) + (-(cumB + c - c)) / c ≤ p
          have h1 : (-(cumB + c - c)) / c ≤ 1 := by
            rw [div_le_one hc]; linarith
          push_cast at hb
          linarith [hb.1]
    · rw [if_neg hBc]
      have hAc : ¬ 0 ≤ cumA + c := fun hx => hBc (by linarith)
      rw [if_neg hAc]
      exact ih (cumA + c) (cumB + c) (k + 1)
        (fun d hd => hpos d (List.mem_cons_of_mem c hd))
        (by linarith) (not_le.mp hAc) (not_le.mp hBc)

/-- Increasing one entry of an all-positive sequence can only decrease
(`payLe`) the payback-loop result, for any negative seed cumulative. -/
lemma paybackGo_anti_single (post : List ℚ) (x y : ℚ) :
    ∀ (pre : List ℚ) (cum : ℚ) (k : ℕ),
      (∀ c ∈ pre ++ x :: post, 0 < c) → x ≤ y → cum < 0 →
      payLe (paybackGo (pre ++ y :: post) cum k) (paybackGo (pre ++ x :: post) cum k) := by
  intro pre
  induction pre with
  | nil =>
    intro cum k hpos hxy hcum
    have hx : 0 < x := hpos x (by simp)
    have hy : 0 < y := lt_of_lt_of_le hx hxy
    simp only [List.nil_append, paybackGo]
    by_cases hYc : 0 ≤ cum + y
    · rw [if_pos hYc]
      by_cases hXc : 0 ≤ cum + x
      · rw [if_pos hXc]
        show (k : ℚ) + (-(cum + y - y)) / y ≤ (k : ℚ) + (-(cum + x - x)) / x
        apply add_le_add_left
        have e1 : cum + y - y = cum := by ring
        have e2 : cum + x - x = cum := by ring
        rw [e1, e2]
        exact div_le_div_of_nonneg_left (by linarith) hx hxy
      · rw [if_neg hXc]
        rcases hgo : paybackGo post (cum + x) (k + 1) with _ | p
        · exact trivial
        · have hb := paybackGo_some_bounds post (cum + x) (k + 1) p (not_le.mp hXc) hgo
          show (k : ℚ) + (-(cum + y - y)) / y ≤ p
          have h1 : (-(cum + y - y)) / y ≤ 1 := by
            rw [div_le_one hy]; linarith
          push_cast at hb
          linarith [hb.1]
    · rw [if_neg hYc]
      have hXc : ¬ 0 ≤ cum + x := fun hx2 => hYc (by linarith)
      rw [if_neg hXc]
      exact paybackGo_anti_cum post (cum + x) (cum + y) (k + 1)
        (fun d hd => hpos d (by simp [hd])) (by linarith)
        (not_le.mp hXc) (not_le.mp hYc)
  | cons c pre' ih =>
    intro cum k hpos hxy hcum
    simp only [List.cons_append, paybackGo]
    by_cases h0 : 0 ≤ cum + c
    · rw [if_pos h0, if_pos h0]
      show (k : ℚ) + (-(cum + c - c)) / c ≤ (k : ℚ) + (-(cum + c - c)) / c
      exact le_refl _
    · rw [if_neg h0, if_neg h0]
      refine ih (cum + c) (k + 1) (fun d hd => hpos d ?_) hxy (not_le.mp h0)
      simp only [List.cons_append, List.mem_cons]
      exact Or.inr (by simpa using hd)

/-- C8: for an all-positive cash-flow sequence and a fixed positive initial
investment, increasing any single entry never increases the payback result,
where a `none` ("never recovered") result counts as larger than every
non-null result. -/
theorem payback_monotone_in_each_flow (pre post : List ℚ) (x y I : ℚ)
    (hpos : ∀ c ∈ pre ++ x :: post, 0 < c) (hxy : x ≤ y) (hI : 0 < I) :
    payLe (calculatePaybackPeriod (pre ++ y :: post) I)
      (calculatePaybackPeriod (pre ++ x :: post) I) :=
  paybackGo_anti_single post x y pre (-I) 0 hpos hxy (by linarith)

/-- C8 witness: doubling the first of two 600 cash flows against investment
1000 moves payback from 5/3 down to 5/6. -/
theorem payback_monotone_in_each_flow_witness :
    payLe (calculatePaybackPeriod ([] ++ 1200 :: [600]) 1000)
      (calculatePaybackPeriod ([] ++ 600 :: [600]) 1000) :=
  payback_monotone_in_each_flow [] [600] 600 1200 1000
    (by intro c hc; simp at hc; rcases hc with rfl | rfl <;> norm_num)
    (by norm_num) (by norm_num)

/-- Shifting the starting year index of the NPV sum divides it by `1 + r`. -/
lemma npvAux_succ (r : ℚ) (h : 1 + r ≠ 0) (l : List ℚ) :
    ∀ y : ℕ, npvAux r l (y + 1) = npvAux r l y / (1 + r) := by
  induction l with
  | nil => intro y; simp [npvAux]
  | cons cf rest ih =>
    intro y
    simp only [npvAux]
    rw [ih (y + 1), add_div, pow_succ]
    congr 1
    rw [div_div]

/-- Discounting identity relating the two NPV call shapes used by the
engine: the NPV of a sequence with the initial investment prepended as a
year-0 flow (and zero initial investment) is the plain NPV divided by
`1 + r`. -/
lemma calculateNPV_prepend (cfs : List ℚ) (I r : ℚ) (h : 1 + r ≠ 0) :
    calculateNPV cfs r I = (1 + r) * calculateNPV (-I :: cfs) r 0 := by
  simp only [calculateNPV, npvAux]
  rw [npvAux_succ r h cfs 0, pow_one]
  field_simp
  ring

/-- C3 counterexample: the claim says that whenever the IRR solver returns a
rate `r`, the NPV of the original sequence at `r` is within `1e-4` of zero.
On `cashFlows = [1.21e9, -1.331e9]` with `initialInvestment = 0.011` the
solver terminates on its successive-guess test (the first Newton step moves
the guess by only `1e-11` because the pseudo-derivative is huge) and
returns `r = 0.1 + 1e-11`, yet the NPV of the original sequence at `r` is
about `-1e-3`, an order of magnitude outside the claimed `1e-4` band. -/
theorem irr_npv_residual_counterexample :
    calculateIRR [-(11 / 1000), 1210000000, -1331000000] =
      some (1 / 10 + 1 / 100000000000) ∧
    ¬|calculateNPV [1210000000, -1331000000] (1 / 10 + 1 / 100000000000)
        (11 / 1000)| ≤ 1 / 10000 := by
  constructor
  · rw [calculateIRR, show (100 : ℕ) = 99 + 1 from rfl, irrGo_succ]
    norm_num [calculateNPV, npvAux, derivativeNpv, derivAux, irrEps, abs_lt]
  · rw [abs_le]
    norm_num [calculateNPV, npvAux]

/-- C3 amended: when the IRR solver returns a rate `r ≠ -1` that meets the
NPV-tolerance test (`|NPV(prepended, r, 0)| < 1e-6`) and `|1 + r| ≤ 100`,
the NPV of the original sequence at `r` is within `1e-4` of zero; the bound
can fail when the solver instead stops on its successive-guess test. -/
theorem irr_npv_residual (cfs : List ℚ) (I r : ℚ)
    (hirr : calculateIRR (-I :: cfs) = some r) (hr : r ≠ -1)
    (hconv : |calculateNPV (-I :: cfs) r 0| < 1 / 1000000)
    (hbound : |1 + r| ≤ 100) :
    |calculateNPV cfs r I| ≤ 1 / 10000 := by
  have h1 : (1 : ℚ) + r ≠ 0 := fun h => hr (by linarith)
  rw [calculateNPV_prepend cfs I r h1, abs_mul]
  calc |1 + r| * |calculateNPV (-I :: cfs) r 0| ≤ 100 * (1 / 1000000) :=
        mul_le_mul hbound (le_of_lt hconv) (abs_nonneg _) (by norm_num)
    _ ≤ 1 / 10000 := by norm_num

/-- C3 amended witness: on `cashFlows = [110]` with investment 100 the
solver converges immediately to the exact root `r = 0.1` by the NPV test,
and the NPV of the original sequence at `0.1` is exactly 0. -/
theorem irr_npv_residual_witness :
    |calculateNPV [110] (1 / 10) 100| ≤ 1 / 10000 :=
  irr_npv_residual [110] 100 (1 / 10)
    (by
      rw [calculateIRR, show (100 : ℕ) = 99 + 1 from rfl, irrGo_succ]
      norm_num [calculateNPV, npvAux, irrEps, abs_lt])
    (by norm_num)
    (by norm_num [calculateNPV, npvAux, irrEps])
    (by rw [abs_le]; norm_num)

/-- The IRR loop returns `none` exactly when the spec-level failure
description holds: the iteration budget runs out without meeting the
tolerance, or some reached guess has a zero derivative. -/
lemma irrGo_none_iff (cfs : List ℚ) :
    ∀ (n : ℕ) (g : ℚ), irrGo cfs g n = none ↔ irrStuck cfs g n := by
  intro n
  induction n with
  | zero => intro g; simp [irrGo, irrStuck]
  | succ n ih =>
    intro g
    rw [irrGo_succ]
    simp only [irrStuck]
    by_cases hnpv : |calculateNPV cfs g 0| < irrEps
    · rw [if_pos hnpv]
      constructor
      · intro h; simp at h
      · rintro ⟨hn, -⟩; exact absurd hnpv hn
    · rw [if_neg hnpv]
      by_cases hd : derivativeNpv cfs g = 0
      · rw [if_pos hd]
        constructor
        · intro _; exact ⟨hnpv, Or.inl hd⟩
        · intro _; rfl
      · rw [if_neg hd]
        by_cases hstep :
          |g - calculateNPV cfs g 0 / derivativeNpv cfs g - g| < irrEps
        · rw [if_pos hstep]
          constructor
          · intro h; simp at h
          · rintro ⟨-, h2 | ⟨hns, -⟩⟩
            · exact absurd h2 hd
            · exact absurd hstep hns
        · rw [if_neg hstep, ih]
          constructor
          · intro hst; exact ⟨hnpv, Or.inr ⟨hstep, hst⟩⟩
          · rintro ⟨-, h2 | ⟨-, h2⟩⟩
            · exact absurd h2 hd
            · exact h2

/-- Any rate the IRR loop returns satisfies the spec-level convergence
description. -/
lemma irrGo_some_converged (cfs : List ℚ) :
    ∀ (n : ℕ) (g r : ℚ), irrGo cfs g n = some r → irrConverged cfs r := by
  intro n
  induction n with
  | zero => intro g r h; simp [irrGo] at h
  | succ n ih =>
    intro g r h
    rw [irrGo_succ] at h
    by_cases hnpv : |calculateNPV cfs g 0| < irrEps
    · rw [if_pos hnpv] at h
      obtain rfl : g = r := by simpa using h
      exact Or.inl hnpv
    · rw [if_neg hnpv] at h
      by_cases hd : derivativeNpv cfs g = 0
      · rw [if_pos hd] at h
        simp at h
      · rw [if_neg hd] at h
        by_cases hstep :
          |g - calculateNPV cfs g 0 / derivativeNpv cfs g - g| < irrEps
        · rw [if_pos hstep] at h
          obtain rfl : g - calculateNPV cfs g 0 / derivativeNpv cfs g = r := by
            simpa using h
          exact Or.inr ⟨g, hd, rfl, hstep⟩
        · rw [if_neg hstep] at h
          exact ih _ r h

/-- C4: the IRR solver is a total function into `Option`; it returns `none`
exactly when a reached guess has derivative zero or the 100-iteration
budget is exhausted without meeting the convergence tolerance (as described
by `irrStuck` from the initial guess 0.1), and any rate it does return
satisfies the convergence description `irrConverged`. -/
theorem irr_none_exactly_when_stuck (cfs : List ℚ) :
    (calculateIRR cfs = none ↔ irrStuck cfs (1 / 10) 100) ∧
    ∀ r, calculateIRR cfs = some r → irrConverged cfs r :=
  ⟨irrGo_none_iff cfs 100 (1 / 10), fun r => irrGo_some_converged cfs 100 (1 / 10) r⟩

/-- C4 witness: on `[-100, 110]` the solver returns `0.1`, which satisfies
the convergence description. -/
theorem irr_none_exactly_when_stuck_witness : irrConverged [-100, 110] (1 / 10) :=
  (irr_none_exactly_when_stuck [-100, 110]).2 (1 / 10)
    (by
      rw [calculateIRR, show (100 : ℕ) = 99 + 1 from rfl, irrGo_succ]
      norm_num [calculateNPV, npvAux, irrEps, abs_lt])

end EVSolar
